import Mathlib

/-!
Shallow embedding of the filing retrieval pipeline of `edgar13f`
(`src/edgar13f/fetch.py`), together with theorems settling the claims about
its specification.

The network layer is modelled by making each embedded function explicit in
the outcomes of the HTTP requests it would issue: a `Transport` run is a
function from the request index to the observed `HttpEvent`, a directory
resolution run is given the outcome of its JSON request and of each of its
HTML candidate requests.  Every definition mirrors the corresponding Python
function line by line; request counts and backoff-sleep counts are carried
in the results so that temporal claims (retry counts, "HTML is never
fetched") become statements about those counters.
-/

namespace Edgar13F

/-- Outcome observed by one `requests.get` call inside `http_get`: either an
HTTP response with a status code and body, or a network-level failure
(connection error / timeout), which `requests` raises as an exception. -/
inductive HttpEvent where
  | status (code : Nat) (body : String)
  | netError (msg : String)
  deriving DecidableEq, Repr

/-- Cause recorded in `last_exc` inside `http_get`: a network-level failure,
or the `requests.HTTPError` raised by `resp.raise_for_status()` for a
4xx/5xx status (both are `requests.RequestException`s). -/
inductive HttpCause where
  | netFail (msg : String)
  | badStatus (code : Nat)
  deriving DecidableEq, Repr

/-- Result of `http_get`.  `requests` counts the `requests.get` calls issued
and `sleeps` counts the backoff sleeps (`time.sleep` in the 429/503 branch
and in the retry branch); the fixed polite delay taken on the success path
is not a backoff sleep and is not counted here. -/
inductive HttpResult where
  | ok (body : String) (requests : Nat) (sleeps : Nat)
  | error (lastCause : Option HttpCause) (requests : Nat) (sleeps : Nat)
  deriving DecidableEq, Repr

/-- Loop body of `http_get` (src/edgar13f/fetch.py lines 27-55).  `fuel` is
the number of attempts still available out of `retries`; the Python
`attempt` variable equals `reqs + 1`, and `events reqs` is what the next
`requests.get` call observes.  A 429/503 status sleeps and consumes the
attempt without touching `last_exc`; any other 4xx/5xx status makes
`resp.raise_for_status()` raise, which the `except requests.RequestException`
branch catches: on the last attempt it breaks out, otherwise it sleeps and
retries.  Falling out of the loop raises `HTTPError` carrying `last_exc`. -/
def httpGetLoop (events : Nat → HttpEvent) :
    (fuel reqs sleeps : Nat) → (lastExc : Option HttpCause) → HttpResult
  | 0, reqs, sleeps, lastExc => .error lastExc reqs sleeps
  | fuel + 1, reqs, sleeps, lastExc =>
    match events reqs with
    | .status code body =>
      if code = 429 ∨ code = 503 then
        httpGetLoop events fuel (reqs + 1) (sleeps + 1) lastExc
      else if 400 ≤ code ∧ code < 600 then
        match fuel with
        | 0 => .error (some (.badStatus code)) (reqs + 1) sleeps
        | fuel' + 1 =>
          httpGetLoop events (fuel' + 1) (reqs + 1) (sleeps + 1)
            (some (.badStatus code))
      else .ok body (reqs + 1) sleeps
    | .netError msg =>
      match fuel with
      | 0 => .error (some (.netFail msg)) (reqs + 1) sleeps
      | fuel' + 1 =>
        httpGetLoop events (fuel' + 1) (reqs + 1) (sleeps + 1)
          (some (.netFail msg))

/-- Embedding of `http_get(url, retries=retries)` (src/edgar13f/fetch.py
lines 18-55) run against the request outcomes `events`. -/
def http_get (events : Nat → HttpEvent) (retries : Nat) : HttpResult :=
  httpGetLoop events retries 0 0 none

/-- Embedding of Python `str.zfill(width)`: left-pad with `'0'` up to
`width`, keeping a leading `'+'`/`'-'` sign in front of the padding; a
string at least `width` long is returned unchanged. -/
def zfill (s : String) (width : Nat) : String :=
  if width ≤ s.length then s
  else
    let fill := List.replicate (width - s.length) '0'
    match s.data with
    | [] => ⟨fill⟩
    | c :: rest =>
      if c = '+' ∨ c = '-' then ⟨c :: (fill ++ rest)⟩ else ⟨fill ++ s.data⟩

/-- Embedding of `pad_cik` (src/edgar13f/fetch.py lines 58-59):
`cik.zfill(10)`. -/
def pad_cik (cik : String) : String := zfill cik 10

/-- Embedding of Python `str.lower()` for the ASCII range (all filenames the
selector handles are ASCII): map `Char.toLower` over the characters. -/
def lowerStr (s : String) : String := ⟨s.data.map Char.toLower⟩

/-- Substring test on character lists: does `needle` occur contiguously in
the list?  Mirrors Python `needle in hay`. -/
def listContainsSub (needle : List Char) : List Char → Bool
  | [] => needle.isEmpty
  | c :: rest => needle.isPrefixOf (c :: rest) || listContainsSub needle rest

/-- Embedding of Python `needle in hay` on strings. -/
def containsStr (hay needle : String) : Bool := listContainsSub needle.data hay.data

/-- Embedding of Python `s.endswith(p)`. -/
def endsWithStr (s p : String) : Bool := p.data.isSuffixOf s.data

/-- Embedding of Python `s.startswith(p)`. -/
def startsWithStr (s p : String) : Bool := p.data.isPrefixOf s.data

/-- First pass of the Document Selector (src/edgar13f/fetch.py lines
157-161): an `.xml` name containing one of the three canonical information
table markers.  Applied to already-lowercased names, as in the source. -/
def canonicalXml (n : String) : Bool :=
  endsWithStr n ".xml" &&
    (containsStr n "informationtable" || containsStr n "infotable" ||
      containsStr n "form13finfo")

/-- Second pass of the Document Selector (src/edgar13f/fetch.py lines
164-166): any `.xml` name other than `primary_doc.xml`. -/
def otherXml (n : String) : Bool :=
  endsWithStr n ".xml" && !(n == "primary_doc.xml")

/-- Embedding of `find_information_table_filename` (src/edgar13f/fetch.py
lines 153-173).  The listing's `files` entries are modelled by their `name`
strings; the function lowercases every name and then runs the three
preference passes, each returning the first hit in listing order. -/
def find_information_table_filename (files0 : List String) : Option String :=
  let files := files0.map lowerStr
  match files.find? canonicalXml with
  | some n => some n
  | none =>
    match files.find? otherXml with
    | some n => some n
    | none => files.find? (fun n => n == "primary_doc.xml")

/-- Period filter of `latest_13f_accession` (src/edgar13f/fetch.py line 97):
with no filter every date passes, otherwise the filing date string must
start with the requested `YYYY-MM` value. -/
def monthOk (filing_month : Option String) (dt : String) : Bool :=
  match filing_month with
  | none => true
  | some m => startsWithStr dt m

/-- Embedding of `latest_13f_accession` (src/edgar13f/fetch.py lines
84-100) applied to the three parallel arrays of `filings.recent`.  The
Python `zip` stops at the shortest array, which the simultaneous pattern
match reproduces; the first position whose form is `13F-HR` and whose date
passes the filter yields `{accession, filingDate}`. -/
def latest_13f_accession :
    (forms accs dates : List String) → (filing_month : Option String) →
      Option (String × String)
  | f :: fs, a :: as', d :: ds, m =>
    if f == "13F-HR" && monthOk m d then some (a, d)
    else latest_13f_accession fs as' ds m
  | _, _, _, _ => none

/-- Bare filename extracted from one anchor's `href` in the HTML fallback
(src/edgar13f/fetch.py line 136): `href.split("/")[-1].split("?")[0]`. -/
def hrefToName (href : String) : String :=
  ⟨((href.data.reverse.takeWhile (fun c => c ≠ '/')).reverse).takeWhile
      (fun c => c ≠ '?')⟩

/-- Filter applied to extracted names (src/edgar13f/fetch.py line 137):
drop empty names and the `.`/`..` self and parent references. -/
def keepName (n : String) : Bool := !(n == "") && !(n == ".") && !(n == "..")

/-- Names collected from one HTML page's anchors, in document order
(src/edgar13f/fetch.py lines 134-139). -/
def extractNames (hrefs : List String) : List String :=
  (hrefs.map hrefToName).filter keepName

/-- First-seen-order deduplication (src/edgar13f/fetch.py lines 141-146). -/
def dedupNames : List String → List String → List String
  | [], _ => []
  | n :: rest, seen =>
    if n ∈ seen then dedupNames rest seen else n :: dedupNames rest (n :: seen)

/-- Result of the Directory Resolver: a normalized listing (the `files`
names) or the `HTTPError` raised at src/edgar13f/fetch.py line 150. -/
inductive DirResult where
  | ok (files : List String)
  | lookupError
  deriving DecidableEq, Repr

/-- HTML fallback loop of `index_listing_for_accession`
(src/edgar13f/fetch.py lines 124-149).  Each candidate page's outcome is
`none` when its fetch or parse raised, or `some hrefs` with the anchors'
targets; `reqs` counts the HTML `http_get` calls issued.  A page whose
filtered name list is empty does not return: the loop advances. -/
def htmlLoop : (cands : List (Option (List String))) → (reqs : Nat) →
    DirResult × Nat
  | [], reqs => (.lookupError, reqs)
  | o :: rest, reqs =>
    match o with
    | none => htmlLoop rest (reqs + 1)
    | some hrefs =>
      let files := extractNames hrefs
      if files.isEmpty then htmlLoop rest (reqs + 1)
      else (.ok (dedupNames files []), reqs + 1)

/-- Embedding of `index_listing_for_accession` (src/edgar13f/fetch.py lines
105-150).  `jsonItems` is the outcome of the JSON request: `none` when any
step of it raised (fetch, JSON decode, item extraction), otherwise the
`directory.item` entries, each carrying its optional `name` field, which
`it.get("name", "")` defaults to the empty string.  `htmlPages` gives the
outcome of each HTML candidate in order.  The second component counts the
HTML requests issued. -/
def index_listing_for_accession (jsonItems : Option (List (Option String)))
    (htmlPages : List (Option (List String))) : DirResult × Nat :=
  match jsonItems with
  | some items => (.ok (items.map (fun it => it.getD "")), 0)
  | none => htmlLoop htmlPages 0

/-- Value of a digit string, used to model Python `int` on digit input. -/
def digitsToNat (l : List Char) : Nat :=
  l.foldl (fun a c => a * 10 + (c.toNat - 48)) 0

/-- Decimal digits of `n`, most significant first; `fuel` bounds the
recursion and `n + 1` always suffices. -/
def natToStrAux : (fuel n : Nat) → List Char → List Char
  | 0, _, acc => acc
  | fuel + 1, n, acc =>
    let d := Char.ofNat (48 + n % 10)
    if n < 10 then d :: acc else natToStrAux fuel (n / 10) (d :: acc)

/-- Decimal rendering of a natural number, as Python `str` on an `int`. -/
def natToStr (n : Nat) : String := ⟨natToStrAux (n + 1) n []⟩

/-- Embedding of Python `int(s)` restricted to plain digit strings, the only
shape the pipeline feeds it (a CIK and an accession's leading component):
any other input is a failure (`ValueError`). -/
def pyInt (s : String) : Option Nat :=
  if s.data ≠ [] ∧ s.data.all Char.isDigit then some (digitsToNat s.data)
  else none

/-- Embedding of Python `str(int(s))`: canonicalize a digit string by
stripping leading zeros (`"0000950123"` becomes `"950123"`). -/
def pyStrInt (s : String) : Option String := (pyInt s).map natToStr

/-- Embedding of `accession.replace("-", "")` (src/edgar13f/fetch.py
line 186). -/
def dropDashes (s : String) : String := ⟨s.data.filter (fun c => c ≠ '-')⟩

/-- Embedding of `accession.split("-")[0]` (src/edgar13f/fetch.py
line 190): the characters before the first dash. -/
def headSplitDash (s : String) : String :=
  ⟨s.data.takeWhile (fun c => c ≠ '-')⟩

/-- Candidate-list construction of `fetch_information_table_xml`
(src/edgar13f/fetch.py lines 186-194).  `str(int(cik))` is outside any
`try`, so a non-numeric `cik` makes the whole call raise (`none` here); the
accession-prefix derivation is inside a `try` whose failure just skips the
second candidate, and the second candidate is appended only when its
identifier is not already among the candidates' identifiers. -/
def fetch_information_table_candidates (cik accession : String) :
    Option (List (String × String)) :=
  match pyStrInt cik with
  | none => none
  | some c0 =>
    let nodash := dropDashes accession
    let base := [(c0, nodash)]
    match pyStrInt (headSplitDash accession) with
    | none => some base
    | some p =>
      if p ∈ base.map Prod.fst then some base
      else some (base ++ [(p, nodash)])

/-- Document URL built by the orchestrator (src/edgar13f/fetch.py
line 203) from the directory owner, the separator-free accession and the
selected filename. -/
def documentUrl (cikDir nodash fname : String) : String :=
  "https://sec.gov/Archives/edgar/data/" ++ cikDir ++ "/" ++ nodash ++ "/" ++
    fname

/-- Any of the three Document Selector passes would accept this
(already-lowercased) name. -/
def matchesAny (n : String) : Bool :=
  canonicalXml n || otherXml n || (n == "primary_doc.xml")

/-- Is the character an ASCII uppercase letter (`A`-`Z`)? -/
def isUpperA (c : Char) : Bool :=
  decide (65 ≤ c.toNat) && decide (c.toNat ≤ 90)

/-- Does the string contain an ASCII uppercase letter? -/
def hasUpperAscii (s : String) : Bool := s.data.any isUpperA

/-- An HTML candidate outcome that contributes no files: its request or
parse failed, or every anchor was filtered out. -/
def htmlNoFiles : Option (List String) → Bool
  | none => true
  | some hrefs => (extractNames hrefs).isEmpty

/-- Transport run observing [503, 503, 200]: the first two requests are
rate-limit style statuses, every later one succeeds. -/
def ev503Then200 : Nat → HttpEvent := fun i =>
  if i < 2 then .status 503 "unavailable" else .status 200 "the-body"

/-- Transport run observing three distinct timeouts. -/
def evThreeTimeouts : Nat → HttpEvent := fun i =>
  if i = 0 then .netError "t1" else if i = 1 then .netError "t2"
  else .netError "t3"

/-- Transport run observing a 404 and then a 200. -/
def ev404Then200 : Nat → HttpEvent := fun i =>
  if i = 0 then .status 404 "not-found" else .status 200 "recovered"

end Edgar13F

/-! Helper lemmas shared by the claim theorems. -/

namespace Edgar13F

/-- A string at least as long as the requested width is returned unchanged
by `zfill`. -/
theorem zfill_of_le (s : String) (w : Nat) (h : w ≤ s.length) :
    zfill s w = s := by
  simp [zfill, h]

/-- Length of a padded identifier: `pad_cik` never truncates, so the result
length is the maximum of 10 and the input length. -/
theorem pad_cik_length (s : String) : (pad_cik s).length = max 10 s.length := by
  obtain ⟨l⟩ := s
  simp only [pad_cik, zfill]
  split
  · rename_i h
    simp only [String.length] at *
    omega
  · rename_i h
    simp only [String.length] at *
    match l with
    | [] => simp
    | c :: rest =>
      simp only []
      split
      · simp only [String.length, List.length_cons, List.length_append,
          List.length_replicate]
        omega
      · simp only [String.length, List.length_append, List.length_replicate,
          List.length_cons]
        omega

/-- Zero-padding is idempotent: the first application reaches length at
least 10, so the second one takes the identity branch. -/
theorem pad_cik_idem (s : String) : pad_cik (pad_cik s) = pad_cik s := by
  apply zfill_of_le
  rw [pad_cik_length]
  omega

/-- Lowercasing a character never yields an ASCII uppercase letter. -/
theorem isUpperA_toLower (c : Char) : isUpperA (Char.toLower c) = false := by
  simp only [Char.toLower]
  split
  · rename_i h
    obtain ⟨h1, h2⟩ := h
    set n := c.toNat with hn
    interval_cases n <;> decide
  · rename_i h
    simp only [isUpperA, Bool.and_eq_false_iff, decide_eq_false_iff_not]
    omega

/-- A character outside the ASCII uppercase range is fixed by
`Char.toLower`. -/
theorem toLower_fix (c : Char) (h : ¬(65 ≤ c.toNat ∧ c.toNat ≤ 90)) :
    Char.toLower c = c := by
  simp only [Char.toLower]
  split
  · rename_i hc
    exact absurd ⟨hc.1, hc.2⟩ h
  · rfl

/-- On an ASCII uppercase letter, `Char.toLower` adds 32 to the code
point. -/
theorem toLower_of_upper (c : Char) (h1 : 65 ≤ c.toNat) (h2 : c.toNat ≤ 90) :
    Char.toLower c = Char.ofNat (c.toNat + 32) := by
  simp only [Char.toLower]
  split
  · rfl
  · rename_i hc
    exact absurd ⟨h1, h2⟩ hc

/-- `Char.toLower` is idempotent. -/
theorem toLower_toLower (c : Char) :
    Char.toLower (Char.toLower c) = Char.toLower c := by
  by_cases h : 65 ≤ c.toNat ∧ c.toNat ≤ 90
  · obtain ⟨h1, h2⟩ := h
    rw [toLower_of_upper c h1 h2]
    apply toLower_fix
    set n := c.toNat with hn
    interval_cases n <;> decide
  · rw [toLower_fix c h, toLower_fix c h]

/-- String lowercasing is idempotent. -/
theorem lowerStr_idem (s : String) : lowerStr (lowerStr s) = lowerStr s := by
  obtain ⟨l⟩ := s
  simp only [lowerStr, List.map_map]
  congr 1
  exact List.map_congr_left fun c _ => toLower_toLower c

/-- A lowercased string contains no ASCII uppercase letter. -/
theorem hasUpperAscii_lowerStr (s : String) :
    hasUpperAscii (lowerStr s) = false := by
  obtain ⟨l⟩ := s
  simp only [hasUpperAscii, lowerStr, List.any_map, List.any_eq_false]
  intro c _
  simp [Function.comp, isUpperA_toLower]

/-- Run of the `http_get` loop against a constant non-retryable 4xx/5xx
status: every attempt raises and is retried, so the loop consumes all its
fuel, makes one request per attempt, sleeps between attempts, and ends with
the status error as the last cause. -/
theorem httpGetLoop_const_bad (c : Nat) (b : String) (h4 : 400 ≤ c)
    (h6 : c < 600) (h429 : c ≠ 429) (h503 : c ≠ 503) :
    ∀ fuel reqs sleeps lastExc,
      httpGetLoop (fun _ => .status c b) (fuel + 1) reqs sleeps lastExc =
        .error (some (.badStatus c)) (reqs + fuel + 1) (sleeps + fuel) := by
  intro fuel
  induction fuel with
  | zero =>
    intro reqs sleeps lastExc
    rw [show httpGetLoop (fun _ => HttpEvent.status c b) (0 + 1) reqs sleeps
          lastExc =
        (if c = 429 ∨ c = 503 then
          httpGetLoop (fun _ => HttpEvent.status c b) 0 (reqs + 1) (sleeps + 1)
            lastExc
        else if 400 ≤ c ∧ c < 600 then
          HttpResult.error (some (.badStatus c)) (reqs + 1) sleeps
        else .ok b (reqs + 1) sleeps) from rfl]
    rw [if_neg (by omega), if_pos ⟨h4, h6⟩]
    congr 1
  | succ n ih =>
    intro reqs sleeps lastExc
    rw [show httpGetLoop (fun _ => HttpEvent.status c b) (n + 1 + 1) reqs
          sleeps lastExc =
        (if c = 429 ∨ c = 503 then
          httpGetLoop (fun _ => HttpEvent.status c b) (n + 1) (reqs + 1)
            (sleeps + 1) lastExc
        else if 400 ≤ c ∧ c < 600 then
          httpGetLoop (fun _ => HttpEvent.status c b) (n + 1) (reqs + 1)
            (sleeps + 1) (some (.badStatus c))
        else .ok b (reqs + 1) sleeps) from rfl]
    rw [if_neg (by omega), if_pos ⟨h4, h6⟩,
      ih (reqs + 1) (sleeps + 1) (some (.badStatus c))]
    congr 1 <;> omega

/-- The HTML fallback loop fails exactly when every remaining candidate
fails or yields no files, whatever the request count so far. -/
theorem htmlLoop_error_iff (cands : List (Option (List String))) :
    ∀ reqs, (htmlLoop cands reqs).1 = DirResult.lookupError ↔
      ∀ o ∈ cands, htmlNoFiles o = true := by
  induction cands with
  | nil => intro reqs; simp [htmlLoop]
  | cons o rest ih =>
    intro reqs
    cases o with
    | none =>
      simp only [htmlLoop, List.mem_cons]
      rw [ih (reqs + 1)]
      constructor
      · rintro h x (rfl | hx)
        · rfl
        · exact h x hx
      · intro h x hx; exact h x (Or.inr hx)
    | some hrefs =>
      simp only [htmlLoop]
      split
      · rename_i hemp
        rw [ih (reqs + 1)]
        simp only [List.mem_cons]
        constructor
        · rintro h x (rfl | hx)
          · simpa [htmlNoFiles] using hemp
          · exact h x hx
        · intro h x hx; exact h x (Or.inr hx)
      · rename_i hemp
        simp only [List.mem_cons]
        constructor
        · intro h; cases h
        · intro h
          have := h (some hrefs) (Or.inl rfl)
          simp only [htmlNoFiles] at this
          exact absurd this (by simpa using hemp)

end Edgar13F

/-! Claim theorems. -/

namespace Edgar13F

/-- C1, counterexample: the claim says a non-success status other than 429
and 503 makes the fetch fail immediately with that status and no further
attempt.  Against the run observing [404, 200] with the default budget of 3,
the embedded `http_get` instead catches the 404's status error, sleeps once,
retries, and returns the 200 body on the second request — it does not fail
at all, let alone after a single request. -/
theorem c1_counterexample :
    ev404Then200 0 = HttpEvent.status 404 "not-found" ∧
    (400 ≤ 404 ∧ 404 < 600 ∧ 404 ≠ 429 ∧ 404 ≠ 503) ∧
    http_get ev404Then200 3 = HttpResult.ok "recovered" 2 1 ∧
    http_get ev404Then200 3 ≠
      HttpResult.error (some (HttpCause.badStatus 404)) 1 0 := by
  decide

/-- C1, amended: a non-success HTTP status other than 429 and 503 is raised
by `resp.raise_for_status()` inside the `try` block, so it is caught and
retried like a network failure; the call fails with that status surfaced as
the error cause only once the retry budget is exhausted, after `retries`
requests and `retries - 1` backoff sleeps. -/
theorem c1_amended_nonretryable_status (c : Nat) (b : String) (retries : Nat)
    (h4 : 400 ≤ c) (h6 : c < 600) (h429 : c ≠ 429) (h503 : c ≠ 503)
    (hr : 1 ≤ retries) :
    http_get (fun _ => .status c b) retries =
      .error (some (.badStatus c)) retries (retries - 1) := by
  obtain ⟨fuel, rfl⟩ : ∃ f, retries = f + 1 := ⟨retries - 1, by omega⟩
  rw [http_get, httpGetLoop_const_bad c b h4 h6 h429 h503]
  congr 1 <;> omega

/-- C1, witness: the amended theorem evaluated at a constant 404 run with
the default retry budget of 3. -/
theorem c1_amended_nonretryable_status_witness :
    http_get (fun _ => .status 404 "not-found") 3 =
      .error (some (.badStatus 404)) 3 2 :=
  c1_amended_nonretryable_status 404 "not-found" 3 (by omega) (by omega)
    (by omega) (by omega) (by omega)

/-- C2, counterexample: the claim says the resolver fails with LookupError
whenever every strategy fails or yields no files, and in particular when a
succeeding strategy yields an empty file set.  With a JSON request that
succeeds and parses to an empty item list (and HTML candidates that would
all fail), the embedded resolver returns the empty listing instead of
failing: the claimed iff is violated at this input. -/
theorem c2_counterexample :
    ((some ([] : List (Option String)) = none) ∨
      (([] : List (Option String)).map (fun it => it.getD "") = [])) ∧
    (∀ o ∈ ([none, none] : List (Option (List String))),
      htmlNoFiles o = true) ∧
    (index_listing_for_accession (some []) [none, none]).1 ≠
      DirResult.lookupError ∧
    (index_listing_for_accession (some []) [none, none]).1 =
      DirResult.ok [] := by
  decide

/-- C2, amended: the Directory Resolver fails with LookupError if and only
if the JSON step raises (yields no valid item list) and every HTML candidate
fails or yields no files.  A JSON request that succeeds returns its mapped
item list immediately — even when that list is empty — so "yields no files"
does not send the JSON path to the fallback. -/
theorem c2_amended_lookup_error_iff
    (jsonItems : Option (List (Option String)))
    (htmlPages : List (Option (List String))) :
    (index_listing_for_accession jsonItems htmlPages).1 =
        DirResult.lookupError ↔
      (jsonItems = none ∧ ∀ o ∈ htmlPages, htmlNoFiles o = true) := by
  cases jsonItems with
  | some items => simp [index_listing_for_accession]
  | none =>
    simp only [index_listing_for_accession]
    rw [htmlLoop_error_iff htmlPages 0]
    simp

/-- C2, witness: the amended iff evaluated at a failing JSON request and a
single failing HTML candidate, in the error direction. -/
theorem c2_amended_lookup_error_iff_witness :
    (index_listing_for_accession none [none]).1 = DirResult.lookupError :=
  (c2_amended_lookup_error_iff none [none]).mpr ⟨rfl, by decide⟩

/-- C3: for investor identifier "1067983" and accession
"0000950123-24-001234", the orchestrator's candidate list starts with
("1067983", "000095012324001234"), and the second candidate derived from
the accession's leading component is appended exactly because its
identifier (here "950123", the leading component with zeros stripped by
`int`) differs from the first; in general a second candidate, when present,
always carries an identifier different from the first's. -/
theorem c3_candidate_ordering :
    fetch_information_table_candidates "1067983" "0000950123-24-001234" =
      some [("1067983", "000095012324001234"),
        ("950123", "000095012324001234")] ∧
    ∀ (cik acc : String) (c0 c1 : String × String)
      (l : List (String × String)),
      fetch_information_table_candidates cik acc = some (c0 :: c1 :: l) →
        c1.1 ≠ c0.1 ∧ l = [] := by
  refine ⟨by decide, ?_⟩
  intro cik acc c0 c1 l h
  simp only [fetch_information_table_candidates] at h
  cases h1 : pyStrInt cik with
  | none => rw [h1] at h; simp at h
  | some v0 =>
    rw [h1] at h
    simp only [] at h
    cases h2 : pyStrInt (headSplitDash acc) with
    | none => rw [h2] at h; simp at h
    | some p =>
      rw [h2] at h
      simp only [List.map_cons, List.map_nil] at h
      split at h
      · simp at h
      · rename_i hmem
        simp only [List.cons_append, List.nil_append, Option.some.injEq,
          List.cons.injEq] at h
        obtain ⟨hc0, hc1, hl⟩ := h
        subst hc0
        subst hc1
        refine ⟨?_, hl.symm⟩
        simp only [List.mem_cons, List.not_mem_nil, or_false] at hmem
        exact fun hh => hmem hh

/-- C3, witness: the general second-candidate property applied to the
concrete candidate list of the claim. -/
theorem c3_candidate_ordering_witness :
    ("950123", "000095012324001234").1 ≠
      ("1067983", "000095012324001234").1 ∧
    ([] : List (String × String)) = [] :=
  c3_candidate_ordering.2 "1067983" "0000950123-24-001234"
    ("1067983", "000095012324001234") ("950123", "000095012324001234") []
    (by decide)

/-- C4: the Document Selector is a pure function realizing the documented
case-insensitive preference order — a canonical information-table `.xml`
name when one exists, otherwise any `.xml` other than `primary_doc.xml`,
otherwise `primary_doc.xml` when present, otherwise nothing — and on the
three concrete listings of the claim it returns
"a_informationtable.xml", "primary_doc.xml" and not-found respectively. -/
theorem c4_document_selector :
    (∀ files : List String,
      ((files.map lowerStr).any canonicalXml = true →
        ∃ n, find_information_table_filename files = some n ∧
          canonicalXml n = true) ∧
      ((files.map lowerStr).any canonicalXml = false →
        (files.map lowerStr).any otherXml = true →
        ∃ n, find_information_table_filename files = some n ∧
          otherXml n = true) ∧
      ((files.map lowerStr).any canonicalXml = false →
        (files.map lowerStr).any otherXml = false →
        "primary_doc.xml" ∈ files.map lowerStr →
        find_information_table_filename files = some "primary_doc.xml") ∧
      ((files.map lowerStr).any canonicalXml = false →
        (files.map lowerStr).any otherXml = false →
        "primary_doc.xml" ∉ files.map lowerStr →
        find_information_table_filename files = none)) ∧
    find_information_table_filename
        ["a_informationtable.xml", "primary_doc.xml"] =
      some "a_informationtable.xml" ∧
    find_information_table_filename ["primary_doc.xml"] =
      some "primary_doc.xml" ∧
    find_information_table_filename ["readme.txt"] = none := by
  refine ⟨?_, by decide, by decide, by decide⟩
  intro files
  refine ⟨?_, ?_, ?_, ?_⟩
  · intro h
    obtain ⟨x, hx, hpx⟩ := List.any_eq_true.mp h
    have hs : ((files.map lowerStr).find? canonicalXml).isSome :=
      List.find?_isSome.mpr ⟨x, hx, hpx⟩
    obtain ⟨n, hn⟩ := Option.isSome_iff_exists.mp hs
    exact ⟨n, by simp only [find_information_table_filename, hn],
      List.find?_some hn⟩
  · intro h1 h2
    have hn1 : (files.map lowerStr).find? canonicalXml = none :=
      List.find?_eq_none.mpr (List.any_eq_false.mp h1)
    obtain ⟨x, hx, hpx⟩ := List.any_eq_true.mp h2
    have hs : ((files.map lowerStr).find? otherXml).isSome :=
      List.find?_isSome.mpr ⟨x, hx, hpx⟩
    obtain ⟨n, hn⟩ := Option.isSome_iff_exists.mp hs
    exact ⟨n, by simp only [find_information_table_filename, hn1, hn],
      List.find?_some hn⟩
  · intro h1 h2 hmem
    have hn1 : (files.map lowerStr).find? canonicalXml = none :=
      List.find?_eq_none.mpr (List.any_eq_false.mp h1)
    have hn2 : (files.map lowerStr).find? otherXml = none :=
      List.find?_eq_none.mpr (List.any_eq_false.mp h2)
    have hs : ((files.map lowerStr).find?
        (fun n => n == "primary_doc.xml")).isSome :=
      List.find?_isSome.mpr ⟨"primary_doc.xml", hmem, by simp⟩
    obtain ⟨y, hy⟩ := Option.isSome_iff_exists.mp hs
    have hy' : y = "primary_doc.xml" := by
      have := List.find?_some hy
      simpa using this
    subst hy'
    simp only [find_information_table_filename, hn1, hn2, hy]
  · intro h1 h2 hmem
    have hn1 : (files.map lowerStr).find? canonicalXml = none :=
      List.find?_eq_none.mpr (List.any_eq_false.mp h1)
    have hn2 : (files.map lowerStr).find? otherXml = none :=
      List.find?_eq_none.mpr (List.any_eq_false.mp h2)
    have hn3 : (files.map lowerStr).find?
        (fun n => n == "primary_doc.xml") = none := by
      refine List.find?_eq_none.mpr fun x hx hbx => hmem ?_
      have : x = "primary_doc.xml" := by simpa using hbx
      exact this ▸ hx
    simp only [find_information_table_filename, hn1, hn2, hn3]

/-- C4, witness: the first preference pass applied to a listing holding a
canonical information-table name in mixed case. -/
theorem c4_document_selector_witness :
    ∃ n, find_information_table_filename ["Form13FInfoTable.XML"] =
      some n ∧ canonicalXml n = true :=
  (c4_document_selector.1 ["Form13FInfoTable.XML"]).1 (by decide)

/-- C5: against the history with forms ["10-K","13F-HR","13F-HR"],
accessions ["A","B","C"] and dates ["2024-01-10","2024-02-14","2023-11-10"],
the Filing Locator returns ("B","2024-02-14") with no period filter (first
matching form in array order), ("C","2023-11-10") for period "2023-11", and
not-found for period "2025-01". -/
theorem c5_filing_locator :
    latest_13f_accession ["10-K", "13F-HR", "13F-HR"] ["A", "B", "C"]
        ["2024-01-10", "2024-02-14", "2023-11-10"] none =
      some ("B", "2024-02-14") ∧
    latest_13f_accession ["10-K", "13F-HR", "13F-HR"] ["A", "B", "C"]
        ["2024-01-10", "2024-02-14", "2023-11-10"] (some "2023-11") =
      some ("C", "2023-11-10") ∧
    latest_13f_accession ["10-K", "13F-HR", "13F-HR"] ["A", "B", "C"]
        ["2024-01-10", "2024-02-14", "2023-11-10"] (some "2025-01") =
      none := by
  decide

/-- C6: a Transport run observing [503, 503, 200] with the default budget
of 3 returns the 200 body without raising after exactly 2 backoff sleeps,
and a run observing three timeouts with retries = 3 fails with the
transport error carrying the last underlying cause ("t3"). -/
theorem c6_transport_retry :
    http_get ev503Then200 3 = HttpResult.ok "the-body" 3 2 ∧
    http_get evThreeTimeouts 3 =
      HttpResult.error (some (HttpCause.netFail "t3")) 3 2 := by
  decide

/-- C7: whenever the JSON directory index succeeds and parses to a valid
item list, the Directory Resolver returns the listing mapped from those
items immediately, and the HTML request counter stays at zero: neither
HTML fallback request is ever issued. -/
theorem c7_json_short_circuit (items : List (Option String))
    (htmlPages : List (Option (List String))) :
    index_listing_for_accession (some items) htmlPages =
      (DirResult.ok (items.map (fun it => it.getD "")), 0) := rfl

/-- C8, counterexample: the claim says pad(x) always has length 10, but
`zfill` never truncates, so the 11-character identifier "12345678901" is
returned unchanged with length 11. -/
theorem c8_counterexample :
    pad_cik "12345678901" = "12345678901" ∧
    (pad_cik "12345678901").length = 11 ∧ (11 : Nat) ≠ 10 := by
  decide

/-- C8, amended: zero-padding is idempotent for every identifier string,
and pad(x) has length max(10, len x) — hence length exactly 10 whenever
the input is at most 10 characters long. -/
theorem c8_amended_pad (x : String) :
    pad_cik (pad_cik x) = pad_cik x ∧
    (pad_cik x).length = max 10 x.length ∧
    (x.length ≤ 10 → (pad_cik x).length = 10) := by
  refine ⟨pad_cik_idem x, pad_cik_length x, fun h => ?_⟩
  rw [pad_cik_length]
  omega

/-- C8, witness: the amended theorem evaluated at the 7-digit identifier
"1067983". -/
theorem c8_amended_pad_witness :
    pad_cik (pad_cik "1067983") = pad_cik "1067983" ∧
    (pad_cik "1067983").length = max 10 "1067983".length ∧
    (pad_cik "1067983").length = 10 :=
  ⟨(c8_amended_pad "1067983").1, (c8_amended_pad "1067983").2.1,
    (c8_amended_pad "1067983").2.2 (by decide)⟩

/-- C9: a filename returned by the Document Selector is the lowercased form
of some listed name; when every listed name the selector could match
contains an ASCII uppercase letter, the returned name is not an element of
the listing; and the document URL the orchestrator builds embeds that
lowercased name verbatim. -/
theorem c9_selector_lowercases (files : List String) (n : String)
    (h : find_information_table_filename files = some n) :
    (∃ m ∈ files, n = lowerStr m) ∧
    ((∀ m ∈ files, matchesAny (lowerStr m) = true → hasUpperAscii m = true) →
      n ∉ files) ∧
    (∀ cikDir nodash, documentUrl cikDir nodash n =
      "https://sec.gov/Archives/edgar/data/" ++ cikDir ++ "/" ++ nodash ++
        "/" ++ n) := by
  have key : n ∈ files.map lowerStr ∧ matchesAny n = true := by
    simp only [find_information_table_filename] at h
    cases h1 : (files.map lowerStr).find? canonicalXml with
    | some y =>
      rw [h1] at h
      simp only [Option.some.injEq] at h
      subst h
      exact ⟨List.mem_of_find?_eq_some h1,
        by simp [matchesAny, List.find?_some h1]⟩
    | none =>
      rw [h1] at h
      cases h2 : (files.map lowerStr).find? otherXml with
      | some y =>
        rw [h2] at h
        simp only [Option.some.injEq] at h
        subst h
        exact ⟨List.mem_of_find?_eq_some h2,
          by simp [matchesAny, List.find?_some h2]⟩
      | none =>
        rw [h2] at h
        refine ⟨List.mem_of_find?_eq_some h, ?_⟩
        have := List.find?_some h
        simp [matchesAny, this]
  obtain ⟨hmem, hmatch⟩ := key
  obtain ⟨m, hm, hlm⟩ := List.mem_map.mp hmem
  have hnl : n = lowerStr m := hlm.symm
  refine ⟨⟨m, hm, hnl⟩, ?_, fun _ _ => rfl⟩
  intro hu hnf
  have hfalse : hasUpperAscii n = false := by
    rw [hnl]; exact hasUpperAscii_lowerStr m
  have hln : lowerStr n = n := by
    rw [hnl, lowerStr_idem]
  have := hu n hnf (by rw [hln]; exact hmatch)
  rw [hfalse] at this
  cases this

/-- C9, witness: the theorem evaluated at a one-element listing whose only
(matching) name is upper case; the returned lowercased name is not in the
listing. -/
theorem c9_selector_lowercases_witness :
    (∃ m ∈ ["A_InformationTable.XML"],
      "a_informationtable.xml" = lowerStr m) ∧
    ((∀ m ∈ ["A_InformationTable.XML"],
        matchesAny (lowerStr m) = true → hasUpperAscii m = true) →
      "a_informationtable.xml" ∉ ["A_InformationTable.XML"]) ∧
    (∀ cikDir nodash,
      documentUrl cikDir nodash "a_informationtable.xml" =
        "https://sec.gov/Archives/edgar/data/" ++ cikDir ++ "/" ++ nodash ++
          "/" ++ "a_informationtable.xml") :=
  c9_selector_lowercases ["A_InformationTable.XML"]
    "a_informationtable.xml" (by decide)

/-- C10: the Filing Locator inspects only positions below the minimum of
the three parallel arrays' lengths — any returned entry comes from such a
position, where all three arrays align and the form and period filter
match; and when no position below that minimum matches, the result is
not-found even if a matching form occurs at or beyond the minimum. -/
theorem c10_filing_locator_truncation
    (forms accs dates : List String) (m : Option String) :
    (∀ a d, latest_13f_accession forms accs dates m = some (a, d) →
      ∃ i, i < min (min forms.length accs.length) dates.length ∧
        forms[i]? = some "13F-HR" ∧ accs[i]? = some a ∧
        dates[i]? = some d ∧ monthOk m d = true) ∧
    ((∀ i, i < min (min forms.length accs.length) dates.length →
        ¬(forms[i]? = some "13F-HR" ∧
          monthOk m (dates[i]?.getD "") = true)) →
      latest_13f_accession forms accs dates m = none) := by
  induction forms generalizing accs dates with
  | nil =>
    constructor
    · intro a d h
      cases accs <;> cases dates <;> simp [latest_13f_accession] at h
    · intro _
      cases accs <;> cases dates <;> simp [latest_13f_accession]
  | cons f fs ih =>
    cases accs with
    | nil =>
      constructor
      · intro a d h
        cases dates <;> simp [latest_13f_accession] at h
      · intro _
        cases dates <;> simp [latest_13f_accession]
    | cons a' as' =>
      cases dates with
      | nil =>
        constructor
        · intro a d h
          simp [latest_13f_accession] at h
        · intro _
          simp [latest_13f_accession]
      | cons d' ds =>
        constructor
        · intro a d h
          simp only [latest_13f_accession] at h
          split at h
          · rename_i hc
            simp only [Option.some.injEq, Prod.mk.injEq] at h
            obtain ⟨rfl, rfl⟩ := h
            rw [Bool.and_eq_true, beq_iff_eq] at hc
            refine ⟨0, ?_, ?_, ?_, ?_, hc.2⟩
            · simp only [List.length_cons]
              omega
            · simp [hc.1]
            · simp
            · simp
          · rename_i hc
            obtain ⟨i, hi, h1, h2, h3, h4⟩ := (ih as' ds).1 a d h
            refine ⟨i + 1, ?_, by simpa using h1, by simpa using h2,
              by simpa using h3, h4⟩
            simp only [List.length_cons]
            omega
        · intro hno
          have h0 := hno 0 (by simp only [List.length_cons]; omega)
          simp only [List.getElem?_cons_zero, Option.getD_some,
            Option.some.injEq] at h0
          simp only [latest_13f_accession]
          rw [if_neg ?hc]
          case hc =>
            rw [Bool.and_eq_true, beq_iff_eq]
            exact h0
          apply (ih as' ds).2
          intro i hi
          have := hno (i + 1) (by simp only [List.length_cons]; omega)
          simpa using this

/-- C10, witness: the not-found direction applied to a history whose only
13F-HR entry sits at index 1, at the minimum of the array lengths (the
accession and date arrays have length 1): the entry is never returned. -/
theorem c10_filing_locator_truncation_witness :
    latest_13f_accession ["10-K", "13F-HR"] ["A"] ["2024-01-10"] none =
      none :=
  (c10_filing_locator_truncation ["10-K", "13F-HR"] ["A"] ["2024-01-10"]
    none).2 (by decide)

end Edgar13F
